import Mathlib

set_option maxHeartbeats 1000000

/-!
Shallow embedding of the `axio-plus` HTTP client (`src/src/client.ts`).

The repository's only source file under `src/` is `client.ts`.  The small
collaborator modules it imports (`pubsub.ts`, `enum.ts`, `const.ts`,
`response.ts`, `type.ts`) are part of the repository but are not under
`src/`; wherever one of them decides a property, the corresponding
definition below is modelled from the spec and says so in its doc comment.
The external collaborators (axios as the transport, rxjs as the
push-stream primitive) are embedded by their documented semantics: a
stream is a list of events followed by one terminal outcome, and a
producer function that throws has its exception delivered to the
subscriber as a terminal stream error (rxjs `Observable._trySubscribe`
routes a synchronous throw in the producer to `observer.error`).
-/

/-- JavaScript runtime values, as far as the client manipulates them:
`undefined`, `null`, booleans, numbers (integral — the client never does
fractional arithmetic), strings, and plain objects as ordered key/value
lists (JS objects have no duplicate keys; all objects built here are
duplicate-free). -/
inductive JsValue where
  | undefVal
  | null
  | bool (b : Bool)
  | num (n : Int)
  | str (s : String)
  | obj (fields : List (String × JsValue))

/-- A plain JS object: an ordered association list of fields. -/
abbrev JsObject := List (String × JsValue)

/-- JS truthiness: `undefined`, `null`, `false`, `0` and `""` are falsy,
everything else (all objects included) is truthy. -/
def JsValue.truthy : JsValue → Bool
  | .undefVal => false
  | .null => false
  | .bool b => b
  | .num n => n != 0
  | .str s => s != ""
  | .obj _ => true

/-- Whether the value is `undefined` (`typeof v === 'undefined'`). -/
def JsValue.isUndefined : JsValue → Bool
  | .undefVal => true
  | _ => false

/-- Whether the value is `null`. -/
def JsValue.isNull : JsValue → Bool
  | .null => true
  | _ => false

/-- Whether `typeof v === 'object'` holds; in JS this is true for plain
objects and for `null`. -/
def JsValue.typeofObject : JsValue → Bool
  | .null => true
  | .obj _ => true
  | _ => false

/-- Property access `v[k]`: the named field of an object, `undefined` for a
missing field and for every non-object receiver the client actually
dereferences (primitives have none of the fields used here). -/
def JsValue.getField : JsValue → String → JsValue
  | .obj fields, k =>
    match fields.lookup k with
    | some v => v
    | none => .undefVal
  | _, _ => .undefVal

/-- JS string coercion as used by `encodeURIComponent(params[key])`. -/
def JsValue.toJsString : JsValue → String
  | .undefVal => "undefined"
  | .null => "null"
  | .bool true => "true"
  | .bool false => "false"
  | .num n => toString n
  | .str s => s
  | .obj _ => "[object Object]"

/-- JS strict equality `===` on the values compared by the client
(`Array.prototype.indexOf` uses it).  On primitives it is value equality;
two objects compare equal only when they are the same reference, and the
two operands of the client's only `===`-comparison (a freshly parsed
response body field against a configured success code) always come from
distinct allocations, so object/object comparison is `false` here. -/
def strictEq : JsValue → JsValue → Bool
  | .undefVal, .undefVal => true
  | .null, .null => true
  | .bool a, .bool b => a == b
  | .num a, .num b => a == b
  | .str a, .str b => a == b
  | _, _ => false

/-- Characters `encodeURIComponent` leaves unescaped:
`A–Z a–z 0–9 - _ . ! ~ * ' ( )`. -/
def isURIUnreserved (c : Char) : Bool :=
  c.isAlpha || c.isDigit || c == '-' || c == '_' || c == '.' || c == '!' ||
    c == '~' || c == '*' || c == Char.ofNat 39 || c == '(' || c == ')'

/-- Uppercase hexadecimal digit for `n < 16`. -/
def hexDigitChar (n : Nat) : Char :=
  if n < 10 then Char.ofNat (48 + n) else Char.ofNat (55 + n)

/-- UTF-8 encoding of one code point, as the list of its byte values. -/
def utf8Bytes (c : Char) : List Nat :=
  let n := c.toNat
  if n < 128 then [n]
  else if n < 2048 then [192 + n / 64, 128 + n % 64]
  else if n < 65536 then [224 + n / 4096, 128 + (n / 64) % 64, 128 + n % 64]
  else [240 + n / 262144, 128 + (n / 4096) % 64, 128 + (n / 64) % 64, 128 + n % 64]

/-- Percent-escape of one byte value: `%XY` with uppercase hex. -/
def percentByte (b : Nat) : String :=
  "%" ++ String.singleton (hexDigitChar (b / 16)) ++ String.singleton (hexDigitChar (b % 16))

/-- The ECMAScript `encodeURIComponent` function: unreserved characters
pass through, every other character is replaced by the percent-escapes of
its UTF-8 bytes. -/
def encodeURIComponent (s : String) : String :=
  String.join (s.toList.map (fun c =>
    if isURIUnreserved c then String.singleton c
    else String.join ((utf8Bytes c).map percentByte)))

/-- `HttpClient._isValidMethod` (client.ts:33-44): membership in the fixed
method allow-list. -/
def _isValidMethod (method : String) : Bool :=
  ["delete", "get", "head", "options", "patch", "post", "put", "jsonp"].contains method

/-- `HttpClient._convertParam` (client.ts:50-64).  `none` stands for a
missing (`undefined`/`null`, i.e. falsy) `params` argument; the loop over
`Object.keys(params)` pushes one encoded `key=value` chunk per key whose
value is not `undefined`, and the chunks are joined with `&`. -/
def _convertParam (params : Option JsObject) : String :=
  match params with
  | none => ""
  | some ps =>
    let array := ps.foldl
      (fun arr kv =>
        if kv.2.isUndefined = false then
          arr ++ [encodeURIComponent kv.1 ++ "=" ++ encodeURIComponent kv.2.toJsString]
        else arr)
      []
    String.intercalate "&" array

/-- The regex test `/\?$/.test(url)`: whether `url` ends with `?`. -/
def endsWithQm (url : String) : Bool :=
  match url.toList.getLast? with
  | some c => c == '?'
  | none => false

/-- `HttpClient._getUrl` (client.ts:71-74).  A falsy (empty) `params`
leaves `url` unchanged. -/
def _getUrl (url : String) (params : String) : String :=
  if params ≠ "" then
    url ++ (if endsWithQm url then params else "?" ++ params)
  else url

/-- `HttpClient._getHeader` (client.ts:80-82): spread of the per-call
header over the common header (`{ ...this._commonHeader, ...header }`),
where a later spread wins on key collision.  `objSet` replaces an existing
key in place or appends a new one, which is JS object-update order. -/
def objSet (o : JsObject) (k : String) (v : JsValue) : JsObject :=
  if (o.map Prod.fst).contains k then
    o.map (fun kv => if kv.1 = k then (kv.1, v) else kv)
  else o ++ [(k, v)]

/-- JS object spread `{ ...a, ...b }` on duplicate-free field lists. -/
def objMerge (a b : JsObject) : JsObject :=
  b.foldl (fun acc kv => objSet acc kv.1 kv.2) a

/-- `HttpClient._getHeader` (client.ts:80-82); `none` models an absent
`options.header`, for which the default parameter `{}` is used. -/
def _getHeader (common : JsObject) (header : Option JsObject) : JsObject :=
  objMerge common (header.getD [])

/-- Observation mode of a request.  Modelled from the spec: `enum.ts` is
not under `src/`; the spec's data model lists the observation mode as the
two-valued tag `Body | Event`. -/
inductive HttpObserveType where
  | Body
  | Event
deriving DecidableEq

/-- The `{code, data}` response-result key descriptor. -/
structure ResponseResultKey where
  code : String
  data : String
deriving DecidableEq

/-- `options.successCode`: a scalar or an array of codes
(`Array.isArray` distinguishes the two at use sites). -/
inductive SuccessCode where
  | scalar (v : JsValue)
  | codes (vs : List JsValue)

/-- A request-option / global-config object before merging: every field
optional (`none` models an absent key).  `HttpConfigType` and
`HttpRequestOptionsType` live in `type.ts`, which is not under `src/`;
the field set is the one `client.ts` reads plus the ones the spec's data
model lists (the status-validation predicate, a function value only handed
to the transport, is not modelled). -/
structure OptionsPatch where
  params : Option JsObject := none
  body : Option JsValue := none
  header : Option JsObject := none
  baseUrl : Option String := none
  withCredentials : Option Bool := none
  responseType : Option String := none
  timeout : Option Int := none
  observe : Option HttpObserveType := none
  responseResultKey : Option ResponseResultKey := none
  successCode : Option SuccessCode := none

/-- A fully merged request-option object, as `request` sees it after
`{ ...HTTP_DEFAULT_REQUEST_OPTION, ...config, ...options }`: the fields
the built-in defaults always provide are present, the rest stay
optional. -/
structure HttpRequestOptions where
  params : Option JsObject := none
  body : Option JsValue := none
  header : Option JsObject := none
  baseUrl : Option String := none
  withCredentials : Option Bool := none
  responseType : Option String := none
  timeout : Option Int := none
  observe : HttpObserveType := .Body
  responseResultKey : ResponseResultKey := ⟨"code", "data"⟩
  successCode : SuccessCode := .scalar (.num 0)

/-- JS object spread `{ ...a, ...b }` on two option patches over the fixed
key set: a key of `b`, when present, wins. -/
def patchMerge (a b : OptionsPatch) : OptionsPatch where
  params := b.params <|> a.params
  body := b.body <|> a.body
  header := b.header <|> a.header
  baseUrl := b.baseUrl <|> a.baseUrl
  withCredentials := b.withCredentials <|> a.withCredentials
  responseType := b.responseType <|> a.responseType
  timeout := b.timeout <|> a.timeout
  observe := b.observe <|> a.observe
  responseResultKey := b.responseResultKey <|> a.responseResultKey
  successCode := b.successCode <|> a.successCode

/-- Spread of a patch over a fully present default object. -/
def applyPatch (d : HttpRequestOptions) (p : OptionsPatch) : HttpRequestOptions where
  params := p.params <|> d.params
  body := p.body <|> d.body
  header := p.header <|> d.header
  baseUrl := p.baseUrl <|> d.baseUrl
  withCredentials := p.withCredentials <|> d.withCredentials
  responseType := p.responseType <|> d.responseType
  timeout := p.timeout <|> d.timeout
  observe := (p.observe).getD d.observe
  responseResultKey := (p.responseResultKey).getD d.responseResultKey
  successCode := (p.successCode).getD d.successCode

/-- The three-way spread `{ ...HTTP_DEFAULT_REQUEST_OPTION, ...config,
...options }` of `request` (client.ts:243). -/
def mergeOptions (d : HttpRequestOptions) (cfg callOpts : OptionsPatch) : HttpRequestOptions :=
  applyPatch d (patchMerge cfg callOpts)

/-- Modelled from the spec: `HTTP_DEFAULT_REQUEST_OPTION` lives in
`const.ts`, which is not under `src/`.  The spec's data model lists the
built-in default request options: body observation, the `{code, data}`
result-key convention, success code `0`, JSON response type and an
unlimited (0) timeout. -/
def HTTP_DEFAULT_REQUEST_OPTION : HttpRequestOptions where
  responseType := some "json"
  timeout := some 0
  observe := .Body
  responseResultKey := ⟨"code", "data"⟩
  successCode := .scalar (.num 0)

/-- Modelled from the spec: `HTTP_DEFAULT_CONFIG` lives in `const.ts`,
which is not under `src/`.  The spec describes it only as the built-in
global defaults merged under the user's `init` config; no theorem below
depends on its contents, so it is the empty patch here. -/
def HTTP_DEFAULT_CONFIG : OptionsPatch := {}

/-- The error-classification taxonomy.  Modelled from the spec: the enum
`HttpErrorCodeType` lives in `enum.ts`, which is not under `src/`; the
spec's classifier table lists exactly Offline, Unauthorized (`UnAuth`),
NotFound and Server. -/
inductive HttpErrorCodeType where
  | Offline
  | UnAuth
  | NotFound
  | Server
deriving DecidableEq

/-- The bus topic string of a classification (the enum value). -/
def HttpErrorCodeType.topic : HttpErrorCodeType → String
  | .Offline => "Offline"
  | .UnAuth => "UnAuth"
  | .NotFound => "NotFound"
  | .Server => "Server"

/-- Enumeration order of `for (let key in HttpErrorCodeType)` over the
taxonomy. -/
def errorCodeKeys : List HttpErrorCodeType :=
  [.Offline, .UnAuth, .NotFound, .Server]

/-- The four classification topic strings. -/
def classificationTopics : List String := errorCodeKeys.map HttpErrorCodeType.topic

/-- A listener registered on the bus by `listen`: the wrapped callback
closes over the identity of the external `handle` function and the topic
it was registered under (client.ts:222-226). -/
structure BusListener where
  handler : Nat
  capturedTopic : String
deriving DecidableEq

/-- Modelled from the spec: `pubsub.ts` is not under `src/`.  The spec
describes the bus as an in-memory topic-to-listener registry with
`on` (append under a topic, registration order kept), `emit` (invoke all
listeners of the topic), and `clear` (remove every topic and handler).
The registry is total over topic strings; a topic with no registration
maps to the empty listener list. -/
structure PubSub where
  registry : String → List BusListener

/-- Bus subscription: appends the listener under the topic. -/
def PubSub.on (ps : PubSub) (topic : String) (l : BusListener) : PubSub :=
  ⟨fun t => if t = topic then ps.registry t ++ [l] else ps.registry t⟩

/-- Bus-wide clear: removes every topic and handler. -/
def PubSub.clear (_ : PubSub) : PubSub :=
  ⟨fun _ => []⟩

/-- The facade's instance state (client.ts:19-26). -/
structure HttpClientState where
  _commonHeader : JsObject
  _inited : Bool
  _config : OptionsPatch
  _pubsub : PubSub

/-- `createClient()` / `new HttpClient()`: the initial facade state. -/
def HttpClient_new : HttpClientState :=
  { _commonHeader := [], _inited := false, _config := {}, _pubsub := ⟨fun _ => []⟩ }

/-- `HttpClient.init` (client.ts:200-205): a no-op once initialized,
otherwise stores the default-config/user-config spread and flips the
one-way flag.  The method returns `this`; in this state model the
returned instance is the returned state. -/
def HttpClientState.init (st : HttpClientState) (config : OptionsPatch) : HttpClientState :=
  if st._inited then st
  else { st with _config := patchMerge HTTP_DEFAULT_CONFIG config, _inited := true }

/-- `HttpClient.setCommonHeader` (client.ts:213-215). -/
def HttpClientState.setCommonHeader (st : HttpClientState) (k : String) (v : JsValue) : HttpClientState :=
  { st with _commonHeader := objSet st._commonHeader k v }

/-- `HttpClient.listen` (client.ts:219-230): for every key of the
taxonomy enum, registers under that topic a wrapper that forwards
`(topic, err, options)` to the external handler, then returns the bus's
`clear` function itself. -/
def HttpClientState.listen (st : HttpClientState) (handler : Nat) :
    HttpClientState × (PubSub → PubSub) :=
  let ps := errorCodeKeys.foldl
    (fun ps t => ps.on t.topic (BusListener.mk handler t.topic)) st._pubsub
  ({ st with _pubsub := ps }, PubSub.clear)

/-- The transport's successful response object, as far as the client
reads it: the parsed `data` payload and the HTTP `status`. -/
structure AxiosResponse where
  data : JsValue
  status : Int

mutual

/-- A value travelling on a request's stream: a tagged progress event
(`HttpUploadProgressEvent` / `HttpDownloadProgressEvent` wrapping the
transport-native progress info), the raw transport response, or the
facade's `{result, response, isSuccess}` wrapper. -/
inductive StreamValue where
  | uploadProgress (p : JsValue) : StreamValue
  | downloadProgress (p : JsValue) : StreamValue
  | rawResponse (r : AxiosResponse) : StreamValue
  | wrapped (result : JsValue) (response : RespField) (isSuccess : Bool) : StreamValue

/-- The `response` field of the `{result, response, isSuccess}` wrapper:
the stream value being wrapped on the success path, the caught error value
on the failure path. -/
inductive RespField where
  | ev (v : StreamValue) : RespField
  | er (e : JsError) : RespField

/-- A JS exception as the pipeline distinguishes them: an
`HttpResponseError` instance, or any other `Error` (carrying its
message). -/
inductive JsError where
  | responseError (e : HttpResponseError) : JsError
  | plainError (msg : String) : JsError

/-- Modelled from the spec: `response.ts` is not under `src/`.  The spec's
data model says a `HttpResponseError` carries the original transport
error/response and the options that produced it.  The two construction
sites in `client.ts` wrap either the response the interpreter rejected
(client.ts:175) or the transport failure (client.ts:136-142). -/
inductive HttpResponseError where
  | mk (source : ErrSource) (options : HttpRequestOptions) : HttpResponseError

/-- What a `HttpResponseError` wraps: the stream value handed to the
response interpreter, or a transport failure (which carries the failed
HTTP response when one exists, and nothing for a network-level
failure). -/
inductive ErrSource where
  | fromResponse (v : StreamValue) : ErrSource
  | fromTransport (response : Option AxiosResponse) : ErrSource

end

/-- Modelled from the spec: the derived `status` of a `HttpResponseError`
(`response.ts` is not under `src/`) — the HTTP status of the wrapped
response, and `0` for a network-level failure with no response. -/
def HttpResponseError.status : HttpResponseError → Int
  | .mk (.fromResponse (.rawResponse r)) _ => r.status
  | .mk (.fromResponse _) _ => 0
  | .mk (.fromTransport (some r)) _ => r.status
  | .mk (.fromTransport none) _ => 0

/-- The options a `HttpResponseError` carries. -/
def HttpResponseError.options : HttpResponseError → HttpRequestOptions
  | .mk _ o => o

/-- One bus delivery: a registered listener invoked with the error and
options (the wrapper then forwards `(capturedTopic, err, options)` to the
external handler). -/
structure Invocation where
  listener : BusListener
  err : HttpResponseError
  options : HttpRequestOptions

/-- Bus emission (modelled from the spec, `pubsub.ts` not under `src/`):
`emit(topic, err, options)` invokes all listeners registered under the
topic, in registration order; emitting to a topic with no listeners is a
no-op. -/
def PubSub.emit (ps : PubSub) (topic : String) (err : HttpResponseError)
    (options : HttpRequestOptions) : List Invocation :=
  (ps.registry topic).map (fun l => ⟨l, err, options⟩)

/-- The status-to-classification mapping of `_handleResponseError`
(client.ts:190-193), with the source's sequence of non-exclusive `if`
statements kept as successive overwrites of `errorType`. -/
def classifyErrorType (status : Int) : Option HttpErrorCodeType :=
  let errorType : Option HttpErrorCodeType := none
  let errorType := if 500 ≤ status then some .Server else errorType
  let errorType := if status = 0 then some .Offline else errorType
  let errorType := if status = 401 then some .UnAuth else errorType
  let errorType := if status = 404 then some .NotFound else errorType
  errorType

/-- The JS property key a topic value is coerced to when `emit` indexes
the registry: an unclassified status leaves `errorType` as `undefined`,
which indexes the registry at the string key `"undefined"`. -/
def topicKey : Option HttpErrorCodeType → String
  | none => "undefined"
  | some t => t.topic

/-- `HttpClient._handleResponseError` (client.ts:185-195): classify the
error's status and emit `(errorType, err, options)` on the bus.  The
returned list is the bus deliveries the emission produces. -/
def _handleResponseError (ps : PubSub) (err : HttpResponseError)
    (options : HttpRequestOptions) : List Invocation :=
  ps.emit (topicKey (classifyErrorType err.status)) err options

/-- The scan of `Array.prototype.indexOf`: position of the first
strict-equal element from index `i`, `-1` when there is none. -/
def indexOfStrictAux (v : JsValue) : List JsValue → Int → Int
  | [], _ => -1
  | x :: xs, i => if strictEq x v then i else indexOfStrictAux v xs (i + 1)

/-- `Array.prototype.indexOf` with JS strict equality, as
`successCode.indexOf(json[keyCode])` uses it. -/
def indexOfStrict (vs : List JsValue) (v : JsValue) : Int :=
  indexOfStrictAux v vs 0

/-- The success-code set of the spec's interpreter contract: a scalar
success code read as the one-element set, an array read as itself. -/
def normalizedSuccessCodes : SuccessCode → List JsValue
  | .scalar v => [v]
  | .codes vs => vs

/-- `HttpClient._handleJsonResponse` (client.ts:159-177): wrap a scalar
success code into a one-element array, then return the `data`-field
payload when the body is truthy, its `code` field is defined and that
field occurs in the success-code array; otherwise return (not throw) a
`HttpResponseError` wrapping the raw response and the options. -/
def _handleJsonResponse (json : JsValue) (response : StreamValue)
    (options : HttpRequestOptions) : JsValue ⊕ HttpResponseError :=
  let responseKey := options.responseResultKey
  let successCode := options.successCode
  let keyCode := responseKey.code
  let codes := match successCode with
    | .codes vs => vs
    | .scalar v => [v]
  if json.truthy = true ∧ (json.getField keyCode).isUndefined = false ∧
      indexOfStrict codes (json.getField keyCode) ≠ -1 then
    Sum.inl (json.getField responseKey.data)
  else
    Sum.inr (.mk (.fromResponse response) options)

/-- A realized request stream: the events delivered to the subscriber in
order, then one terminal outcome (`none` = completed, `some e` = errored
with `e`).  This is the rxjs observable semantics for the single-shot
streams this client builds: all events precede the terminal. -/
structure RxStream where
  events : List StreamValue
  terminal : Option JsError

/-- One upload/download progress tick reported by the transport during a
run. -/
inductive ProgressTick where
  | up (p : JsValue)
  | down (p : JsValue)

/-- The tagged stream event a progress tick is pushed as
(client.ts:115-120). -/
def tickEvent : ProgressTick → StreamValue
  | .up p => .uploadProgress p
  | .down p => .downloadProgress p

/-- How one underlying transport call resolves. -/
inductive TransportOutcome where
  | success (r : AxiosResponse)
  | failure (response : Option AxiosResponse)

/-- One transport run: the progress ticks reported during the call, then
its resolution. -/
structure TransportRun where
  progress : List ProgressTick
  outcome : TransportOutcome

/-- The argument object handed to `Axios.request` (client.ts:106-131).
The cancel-token source and the progress/validate-status callbacks are
the transport-side plumbing modelled by `TransportRun`; the
`validateStatus` wrapper closes over the global config's predicate, a
function value outside this embedding. -/
structure AxiosCall where
  method : String
  url : String
  baseURL : Option String
  data : Option JsValue
  headers : JsObject
  withCredentials : Bool
  responseType : String
  timeout : Int

/-- The synchronous prefix of the `_request` producer (client.ts:91-106):
the url and method preconditions, parameter serialization, url and header
construction, and the built transport call.  A thrown `Error` is the
`Except.error` carrying its message; in the error cases no `AxiosCall`
exists, so no network attempt is made. -/
def _requestProducer (st : HttpClientState) (method url : String)
    (options : HttpRequestOptions) : Except String AxiosCall :=
  if url = "" then .error "the url is required!"
  else if _isValidMethod method = false then .error ("method " ++ method ++ " is not valid!")
  else
    let params : Option String := match options.params with
      | some p => some (_convertParam (some p))
      | none => none
    let url2 := _getUrl url (params.getD "")
    let header := _getHeader st._commonHeader options.header
    .ok { method := method
          url := url2
          baseURL := options.baseUrl
          data := options.body
          headers := header
          withCredentials := (options.withCredentials).getD false
          responseType := (options.responseType).getD "json"
          timeout := (options.timeout).getD 0 }

/-- The stream `_request` produces for one transport run
(client.ts:90-149).  A synchronous throw in the producer (missing url,
invalid method) is delivered to the subscriber as the terminal stream
error — rxjs `Observable._trySubscribe` catches the throw and calls
`observer.error` on it — so the stream carries no events in that case.
On transport success the raw response is pushed after the progress events
and the stream completes; on transport failure the stream errors with a
`HttpResponseError` wrapping the failure and the options. -/
def _requestStream (st : HttpClientState) (method url : String)
    (options : HttpRequestOptions) (run : TransportRun) : RxStream :=
  match _requestProducer st method url options with
  | .error msg => { events := [], terminal := some (.plainError msg) }
  | .ok _ =>
    let events := run.progress.map tickEvent
    match run.outcome with
    | .success r => { events := events ++ [.rawResponse r], terminal := none }
    | .failure resp =>
      { events := events
        terminal := some (.responseError (.mk (.fromTransport resp) options)) }

/-- The `filter` stage predicate of `request` (client.ts:245-254): unless
events are observed, progress events are dropped. -/
def filterPred (options : HttpRequestOptions) (v : StreamValue) : Bool :=
  if options.observe ≠ HttpObserveType.Event then
    !(match v with
      | .downloadProgress _ => true
      | .uploadProgress _ => true
      | _ => false)
  else true

/-- The rxjs `filter` operator on a realized stream. -/
def rxFilter (p : StreamValue → Bool) (s : RxStream) : RxStream :=
  { events := s.events.filter p, terminal := s.terminal }

/-- The `data` property of a stream value (`response.data`,
client.ts:257): the parsed payload of a raw response; the progress-event
and wrapper objects expose no `data` property, so the access yields
`undefined` on them. -/
def respDataOf : StreamValue → JsValue
  | .rawResponse r => r.data
  | _ => .undefVal

/-- The `map` stage function of `request` (client.ts:255-279).  In body
observation mode a JSON object body goes through the response
interpreter: a returned `HttpResponseError` is thrown (the `Except.error`
branch), a payload is wrapped as `{result, response, isSuccess: true}`;
a non-JSON body is wrapped directly; outside body mode the event passes
through untouched. -/
def mapFn (options : HttpRequestOptions) (response : StreamValue) :
    Except JsError StreamValue :=
  if options.observe = HttpObserveType.Body then
    let data := respDataOf response
    let result := data
    if options.responseType = some "json" ∧ data.typeofObject = true then
      match _handleJsonResponse data response options with
      | .inr e => .error (.responseError e)
      | .inl payload => .ok (.wrapped payload (.ev response) true)
    else .ok (.wrapped result (.ev response) true)
  else .ok response

/-- Event processing of the rxjs `map` operator when the mapping function
can throw: events are transformed in order until the first throw, which
becomes the terminal error and drops the rest. -/
def runMapEvents (f : StreamValue → Except JsError StreamValue) :
    List StreamValue → List StreamValue × Option JsError
  | [] => ([], none)
  | x :: xs =>
    match f x with
    | .error e => ([], some e)
    | .ok y =>
      let rest := runMapEvents f xs
      (y :: rest.1, rest.2)

/-- The rxjs `map` operator on a realized stream, for a mapping function
that can throw: a throw while mapping an event terminates the stream with
that error; otherwise the upstream terminal is kept. -/
def rxMapE (f : StreamValue → Except JsError StreamValue) (s : RxStream) : RxStream :=
  let processed := runMapEvents f s.events
  { events := processed.1
    terminal := match processed.2 with
      | some e => some e
      | none => s.terminal }

/-- The filtered-and-mapped stream of the `request` pipeline, before the
`catchError` stage (client.ts:244-279). -/
def mappedStage (st : HttpClientState) (method url : String)
    (options : HttpRequestOptions) (run : TransportRun) : RxStream :=
  rxMapE (mapFn options) (rxFilter (filterPred options) (_requestStream st method url options run))

/-- A `console.error` diagnostic record written by the `catchError` stage
for a non-`ResponseError` exception. -/
inductive LogEntry where
  | consoleError (e : JsError)

/-- The value and effects of one `request` call: the stream the
subscriber observes, the bus deliveries the error classifier produced,
and the diagnostic log. -/
structure RequestOutcome where
  stream : RxStream
  emissions : List Invocation
  logs : List LogEntry

/-- `HttpClient.request` (client.ts:239-290).  Throws synchronously
(`Except.error`) when the client is uninitialized; otherwise merges the
options, runs the pipeline, and — in the `catchError` stage — routes a
terminal `HttpResponseError` to the classifier (bus emission) or logs any
other terminal error, then resolves the stream with
`of({result: null, response: error, isSuccess: false})`. -/
def HttpClientState.request (st : HttpClientState) (method url : String)
    (callOpts : OptionsPatch) (run : TransportRun) : Except JsError RequestOutcome :=
  if st._inited = false then .error (.plainError "please call init first")
  else
    let options := mergeOptions HTTP_DEFAULT_REQUEST_OPTION st._config callOpts
    let mapped := mappedStage st method url options run
    match mapped.terminal with
    | none => .ok { stream := { events := mapped.events, terminal := none }, emissions := [], logs := [] }
    | some e =>
      let resolved := StreamValue.wrapped .null (.er e) false
      match e with
      | .responseError re =>
        .ok { stream := { events := mapped.events ++ [resolved], terminal := none }
              emissions := _handleResponseError st._pubsub re options
              logs := [] }
      | .plainError msg =>
        .ok { stream := { events := mapped.events ++ [resolved], terminal := none }
              emissions := []
              logs := [.consoleError (.plainError msg)] }

/-! Concrete instances used by the witness and counterexample theorems. -/

/-- A client that went through `init` with the empty config. -/
def initedClient : HttpClientState := HttpClient_new.init {}

/-- A transport run with no progress ticks that resolves successfully
with status 200 and a null body (never reached by runs that fail their
preconditions). -/
def runOk : TransportRun := { progress := [], outcome := .success { data := .null, status := 200 } }

/-- A transport run that fails at the network level (no response). -/
def runFail : TransportRun := { progress := [], outcome := .failure none }

/-- The options `request` uses on `initedClient` with the empty per-call
patch. -/
def optsW : HttpRequestOptions := mergeOptions HTTP_DEFAULT_REQUEST_OPTION initedClient._config {}

/-- The `HttpResponseError` a network-level failure of such a request
wraps. -/
def reW : HttpResponseError := .mk (.fromTransport none) optsW

/-- A `HttpResponseError` whose wrapped response failed with status 401. -/
def err401W : HttpResponseError := .mk (.fromTransport (some { data := .null, status := 401 })) {}

/-- A `HttpResponseError` whose wrapped response failed with status 418. -/
def err418W : HttpResponseError := .mk (.fromTransport (some { data := .null, status := 418 })) {}

/-- A per-call patch selecting event observation. -/
def evtPatch : OptionsPatch := { observe := some .Event }

/-- A transport run with one upload tick that resolves successfully. -/
def runP : TransportRun :=
  { progress := [.up (.num 1)], outcome := .success { data := .null, status := 200 } }

-- Auxiliary: the fold in `_convertParam` is append-of-chunks.
theorem convertParam_foldl_eq (f : String × JsValue → String) :
    ∀ (ps : JsObject) (acc : List String),
      ps.foldl
          (fun arr kv => if kv.2.isUndefined = false then arr ++ [f kv] else arr) acc
        = acc ++ (ps.filter (fun kv => !kv.2.isUndefined)).map f := by
  intro ps
  induction ps with
  | nil => intro acc; simp [List.foldl]
  | cons hd tl ih =>
    intro acc
    by_cases h : hd.2.isUndefined = false
    · simp [List.foldl, List.filter, h, ih, List.append_assoc]
    · simp at h
      simp [List.foldl, List.filter, h, ih]

/-- C8: `_convertParam` joins individually percent-encoded `key=value`
pairs with `&`, skips every key whose value is `undefined`, and returns
the empty string for an empty or missing mapping; in particular
`convertParam({a:1, b:undefined}) = "a=1"`. -/
theorem convertParam_c8 :
    (∀ ps : JsObject,
        _convertParam (some ps) =
          String.intercalate "&"
            ((ps.filter (fun kv => !kv.2.isUndefined)).map
              (fun kv => encodeURIComponent kv.1 ++ "=" ++ encodeURIComponent kv.2.toJsString)))
    ∧ _convertParam none = ""
    ∧ _convertParam (some []) = ""
    ∧ _convertParam (some [("a", JsValue.num 1), ("b", JsValue.undefVal)]) = "a=1" := by
  refine ⟨?_, rfl, rfl, by decide⟩
  intro ps
  show String.intercalate "&" _ = _
  rw [convertParam_foldl_eq]
  simp

/-- C9: `_getUrl` returns the url unchanged for an empty query string,
appends the query string directly when the url already ends in `?`, and
inserts a `?` otherwise; checked on the spec's concrete examples. -/
theorem getUrl_c9 :
    (∀ url qs : String,
        (qs = "" → _getUrl url qs = url)
        ∧ (qs ≠ "" → endsWithQm url = true → _getUrl url qs = url ++ qs)
        ∧ (qs ≠ "" → endsWithQm url = false → _getUrl url qs = url ++ "?" ++ qs))
    ∧ _getUrl "https://x/y?" "a=1" = "https://x/y?a=1"
    ∧ _getUrl "https://x/y" "a=1" = "https://x/y?a=1"
    ∧ _getUrl "https://x/y" "" = "https://x/y" := by
  refine ⟨?_, by decide, by decide, by decide⟩
  intro url qs
  refine ⟨?_, ?_, ?_⟩
  · intro h; simp [_getUrl, h]
  · intro h he; simp [_getUrl, h, he]
  · intro h he; simp [_getUrl, h, he, String.append_assoc]

/-- Witness for C9 at concrete inputs, discharging each hypothesis. -/
theorem getUrl_c9_witness :
    _getUrl "https://x/y" "" = "https://x/y"
    ∧ _getUrl "a?" "b" = "a?b"
    ∧ _getUrl "a" "b" = "a?b" :=
  ⟨(getUrl_c9.1 "https://x/y" "").1 rfl,
   (getUrl_c9.1 "a?" "b").2.1 (by decide) (by decide),
   (getUrl_c9.1 "a" "b").2.2 (by decide) (by decide)⟩

/-- C5: `init` is idempotent and the facade's state machine is one-way:
the first `init` stores the merged configuration and moves the client to
Initialized; any later `init`, with any config, is a no-op returning the
same instance and leaving the stored configuration unchanged; no
operation re-enters Uninitialized. -/
theorem init_c5 :
    ∀ (st : HttpClientState) (c1 c2 : OptionsPatch) (k : String) (v : JsValue) (h : Nat),
      ((st.init c1)._inited = true)
      ∧ ((st.init c1).init c2 = st.init c1)
      ∧ (st._inited = false → (st.init c1)._config = patchMerge HTTP_DEFAULT_CONFIG c1)
      ∧ (st._inited = true → st.init c1 = st)
      ∧ (((st.init c1).setCommonHeader k v)._inited = true)
      ∧ ((((st.init c1).listen h).1)._inited = true) := by
  intro st c1 c2 k v h
  by_cases hi : st._inited
  · refine ⟨?_, ?_, ?_, ?_, ?_, ?_⟩ <;>
      simp [HttpClientState.init, HttpClientState.setCommonHeader, HttpClientState.listen, hi]
  · refine ⟨?_, ?_, ?_, ?_, ?_, ?_⟩ <;>
      simp [HttpClientState.init, HttpClientState.setCommonHeader, HttpClientState.listen, hi]

/-- Witness for C5 at concrete inputs: a fresh client stores the merged
config of its first `init`, a second differing `init` changes nothing,
and an already-initialized client ignores `init`. -/
theorem init_c5_witness :
    ((HttpClient_new.init { responseType := some "a" })._config
        = patchMerge HTTP_DEFAULT_CONFIG { responseType := some "a" })
    ∧ ((HttpClient_new.init { responseType := some "a" }).init { responseType := some "b" }
        = HttpClient_new.init { responseType := some "a" })
    ∧ (initedClient.init { responseType := some "b" } = initedClient) :=
  ⟨(init_c5 HttpClient_new { responseType := some "a" } { responseType := some "b" }
      "" JsValue.undefVal 0).2.2.1 rfl,
   (init_c5 HttpClient_new { responseType := some "a" } { responseType := some "b" }
      "" JsValue.undefVal 0).2.1,
   (init_c5 initedClient { responseType := some "b" } {} "" JsValue.undefVal 0).2.2.2.1 rfl⟩

/-- C7: the function `listen` returns is the bus-wide `clear`: invoking
it removes every listener registered under every topic, including the
registrations made by other `listen` calls, not only the ones of the
`listen` call that returned it. -/
theorem listen_c7 :
    ∀ (st : HttpClientState) (h1 h2 : Nat),
      ((st.listen h1).2 = PubSub.clear)
      ∧ (∀ t, t ∈ classificationTopics →
          BusListener.mk h1 t ∈ (((st.listen h1).1.listen h2).1._pubsub.registry t)
          ∧ BusListener.mk h2 t ∈ (((st.listen h1).1.listen h2).1._pubsub.registry t))
      ∧ (∀ (ps : PubSub) (t : String), (PubSub.clear ps).registry t = [])
      ∧ (∀ t, ((st.listen h1).2 (((st.listen h1).1.listen h2).1._pubsub)).registry t = []) := by
  intro st h1 h2
  refine ⟨rfl, ?_, fun ps t => rfl, fun t => rfl⟩
  intro t ht
  simp [classificationTopics, errorCodeKeys, HttpErrorCodeType.topic] at ht
  rcases ht with h | h | h | h <;> subst h <;>
    constructor <;>
      simp [HttpClientState.listen, errorCodeKeys, List.foldl, PubSub.on,
        HttpErrorCodeType.topic]

/-- Witness for C7: both registrations exist on the `"Offline"` topic
after two `listen` calls on a fresh client. -/
theorem listen_c7_witness :
    BusListener.mk 1 "Offline" ∈ (((HttpClient_new.listen 1).1.listen 2).1._pubsub.registry "Offline")
    ∧ BusListener.mk 2 "Offline" ∈ (((HttpClient_new.listen 1).1.listen 2).1._pubsub.registry "Offline") :=
  (listen_c7 HttpClient_new 1 2).2.1 "Offline" (by decide)

/-- C2: the classifier maps status 0 to Offline, 401 to Unauthorized
(`UnAuth`), 404 to NotFound and every status at least 500 to Server,
publishing `(classification, error, options)` to the listeners of the
classification's topic; for every status outside the table no listener
registered under any classification topic is invoked. -/
theorem classifier_c2 :
    (classifyErrorType 0 = some HttpErrorCodeType.Offline)
    ∧ (classifyErrorType 401 = some HttpErrorCodeType.UnAuth)
    ∧ (classifyErrorType 404 = some HttpErrorCodeType.NotFound)
    ∧ (∀ s : Int, 500 ≤ s → classifyErrorType s = some HttpErrorCodeType.Server)
    ∧ (∀ s : Int, s ≠ 0 → s ≠ 401 → s ≠ 404 → s < 500 → classifyErrorType s = none)
    ∧ (∀ (ps : PubSub) (err : HttpResponseError) (options : HttpRequestOptions)
        (c : HttpErrorCodeType),
        classifyErrorType err.status = some c →
        _handleResponseError ps err options
          = (ps.registry c.topic).map (fun l => Invocation.mk l err options))
    ∧ (∀ (ps : PubSub) (err : HttpResponseError) (options : HttpRequestOptions),
        classifyErrorType err.status = none →
        (∀ t, t ∉ classificationTopics → ps.registry t = []) →
        _handleResponseError ps err options = []) := by
  refine ⟨by decide, by decide, by decide, ?_, ?_, ?_, ?_⟩
  · intro s hs
    simp only [classifyErrorType]
    rw [if_neg (by omega), if_neg (by omega), if_neg (by omega), if_pos hs]
  · intro s h0 h401 h404 h500
    simp only [classifyErrorType]
    rw [if_neg h404, if_neg h401, if_neg h0, if_neg (by omega)]
  · intro ps err options c hc
    simp [_handleResponseError, hc, topicKey, PubSub.emit]
  · intro ps err options hnone hreg
    simp [_handleResponseError, hnone, topicKey, PubSub.emit]
    rw [hreg "undefined" (by decide)]

/-- Witness for C2 at concrete inputs: 505 classifies as Server, 418 as
nothing, a 401 error is delivered to the `"UnAuth"` listeners, and a 418
error on a bus whose listeners all sit under classification topics
invokes nobody. -/
theorem classifier_c2_witness :
    (classifyErrorType 505 = some HttpErrorCodeType.Server)
    ∧ (classifyErrorType 418 = none)
    ∧ (_handleResponseError (HttpClient_new.listen 7).1._pubsub err401W {}
        = (((HttpClient_new.listen 7).1._pubsub).registry "UnAuth").map
            (fun l => Invocation.mk l err401W {}))
    ∧ (_handleResponseError ⟨fun _ => []⟩ err418W {} = []) :=
  ⟨classifier_c2.2.2.2.1 505 (by decide),
   classifier_c2.2.2.2.2.1 418 (by decide) (by decide) (by decide) (by decide),
   classifier_c2.2.2.2.2.2.1 (HttpClient_new.listen 7).1._pubsub err401W {}
     HttpErrorCodeType.UnAuth (by decide),
   classifier_c2.2.2.2.2.2.2 ⟨fun _ => []⟩ err418W {} (by decide) (fun t _ => rfl)⟩

-- Auxiliary: `indexOf` returns -1 exactly when no element is strict-equal.
theorem indexOfStrictAux_eq_neg1 (v : JsValue) :
    ∀ (vs : List JsValue) (i : Int), 0 ≤ i →
      (indexOfStrictAux v vs i = -1 ↔ vs.any (fun c => strictEq c v) = false) := by
  intro vs
  induction vs with
  | nil => intro i hi; simp [indexOfStrictAux]
  | cons x xs ih =>
    intro i hi
    by_cases hx : strictEq x v = true
    · simp [indexOfStrictAux, hx]
      omega
    · simp only [Bool.not_eq_true] at hx
      simp [indexOfStrictAux, hx, ih (i + 1) (by omega)]

/-- C3: the response interpreter returns the `data`-named payload exactly
when the body is non-null, its `code`-named field is defined, and that
field's value is a member (under JS strict equality) of the normalized
success-code set; in every other case it returns — it does not throw —
a `HttpResponseError` wrapping the raw response and the options. -/
theorem handleJsonResponse_c3 :
    ∀ (json : JsValue) (response : StreamValue) (options : HttpRequestOptions),
      _handleJsonResponse json response options =
        (if json.isNull = false
            ∧ (json.getField options.responseResultKey.code).isUndefined = false
            ∧ (normalizedSuccessCodes options.successCode).any
                (fun c => strictEq c (json.getField options.responseResultKey.code)) = true
         then Sum.inl (json.getField options.responseResultKey.data)
         else Sum.inr (HttpResponseError.mk (.fromResponse response) options)) := by
  intro json response options
  have main : ∀ codes : List JsValue,
      (if json.truthy = true
          ∧ (json.getField options.responseResultKey.code).isUndefined = false
          ∧ indexOfStrict codes (json.getField options.responseResultKey.code) ≠ -1 then
         Sum.inl (json.getField options.responseResultKey.data)
       else Sum.inr (HttpResponseError.mk (.fromResponse response) options))
      = (if json.isNull = false
            ∧ (json.getField options.responseResultKey.code).isUndefined = false
            ∧ codes.any (fun c => strictEq c (json.getField options.responseResultKey.code)) = true
         then Sum.inl (json.getField options.responseResultKey.data)
         else Sum.inr (HttpResponseError.mk (.fromResponse response) options)) := by
    intro codes
    refine if_congr ?_ rfl rfl
    constructor
    · rintro ⟨ht, ha, hb⟩
      refine ⟨?_, ha, ?_⟩
      · cases json <;> first
          | rfl
          | (exfalso; simp [JsValue.truthy] at ht)
      · cases hany : codes.any (fun c => strictEq c (json.getField options.responseResultKey.code)) with
        | true => rfl
        | false =>
          exact absurd ((indexOfStrictAux_eq_neg1 _ codes 0 (by omega)).mpr hany) hb
    · rintro ⟨hn, ha, hb⟩
      have ht : json.truthy = true := by
        cases json <;>
          simp_all [JsValue.getField, JsValue.isUndefined, JsValue.truthy, JsValue.isNull]
      refine ⟨ht, ha, ?_⟩
      intro hEq
      simp only [indexOfStrict] at hEq
      rw [indexOfStrictAux_eq_neg1 _ codes 0 (by omega)] at hEq
      simp [hb] at hEq
  cases hsc : options.successCode with
  | scalar v =>
    simpa [_handleJsonResponse, hsc, normalizedSuccessCodes] using main [v]
  | codes vs =>
    simpa [_handleJsonResponse, hsc, normalizedSuccessCodes] using main vs

/-- C4: the request executor rejects every method outside the allow-list
and every empty url with the corresponding InvalidArgument error, in both
cases before the transport call exists — no `AxiosCall` is produced and
the stream carries no transport event. -/
theorem requestExecutor_c4 :
    ∀ (st : HttpClientState) (method url : String) (options : HttpRequestOptions)
      (run : TransportRun),
      ((_isValidMethod method = true) ↔
        method ∈ ["delete", "get", "head", "options", "patch", "post", "put", "jsonp"])
      ∧ (url = "" → _requestProducer st method url options = .error "the url is required!")
      ∧ (url ≠ "" → _isValidMethod method = false →
          _requestProducer st method url options
            = .error ("method " ++ method ++ " is not valid!"))
      ∧ ((url = "" ∨ _isValidMethod method = false) →
          (∀ call, _requestProducer st method url options ≠ .ok call)
          ∧ (_requestStream st method url options run).events = []) := by
  intro st method url options run
  have hu : url = "" → _requestProducer st method url options = .error "the url is required!" := by
    intro h
    simp [_requestProducer, h]
  have hm : url ≠ "" → _isValidMethod method = false →
      _requestProducer st method url options
        = .error ("method " ++ method ++ " is not valid!") := by
    intro h hv
    simp [_requestProducer, h, hv]
  refine ⟨?_, hu, hm, ?_⟩
  · simp [_isValidMethod]
  · intro hor
    have herr : ∃ msg, _requestProducer st method url options = .error msg := by
      rcases hor with h | h
      · exact ⟨_, hu h⟩
      · by_cases hu2 : url = ""
        · exact ⟨_, hu hu2⟩
        · exact ⟨_, hm hu2 h⟩
    rcases herr with ⟨msg, hmsg⟩
    constructor
    · intro call hcall
      rw [hmsg] at hcall
      cases hcall
    · simp [_requestStream, hmsg]

/-- Witness for C4 at concrete inputs: the empty url and the disallowed
method `brew` each fail before any transport call. -/
theorem requestExecutor_c4_witness :
    (_requestProducer initedClient "get" "" {} = .error "the url is required!")
    ∧ (_requestProducer initedClient "brew" "https://x" {}
        = .error ("method " ++ "brew" ++ " is not valid!"))
    ∧ (_requestStream initedClient "brew" "https://x" {} runOk).events = [] :=
  ⟨(requestExecutor_c4 initedClient "get" "" {} runOk).2.1 rfl,
   (requestExecutor_c4 initedClient "brew" "https://x" {} runOk).2.2.1 (by decide) (by decide),
   ((requestExecutor_c4 initedClient "brew" "https://x" {} runOk).2.2.2 (Or.inr (by decide))).2⟩

-- Auxiliary: `some a <|> b` keeps the first present value.
theorem optSomeOrElse {α : Type} (a : α) (b : Option α) : (some a <|> b) = some a := rfl

-- Auxiliary: mapping with a function that never throws keeps all events.
theorem runMapEvents_ok_id (f : StreamValue → Except JsError StreamValue)
    (hf : ∀ v, f v = Except.ok v) :
    ∀ l, runMapEvents f l = (l, none) := by
  intro l
  induction l with
  | nil => rfl
  | cons x xs ih => simp [runMapEvents, hf, ih]

/-- C1: on an initialized client, a terminal stream error never reaches a
subscriber of `request`: a terminal `HttpResponseError` is routed to the
classifier (whose bus deliveries are the call's emissions) and the stream
is resolved with `{result: null, response: error, isSuccess: false}`; any
other terminal error is logged and converted to the same failure value;
in every case the observed stream completes (`terminal = none`). -/
theorem request_c1 :
    ∀ (st : HttpClientState) (method url : String) (callOpts : OptionsPatch)
      (run : TransportRun),
      st._inited = true →
      (∀ out, st.request method url callOpts run = Except.ok out →
          out.stream.terminal = none)
      ∧ (∀ re,
          (mappedStage st method url
              (mergeOptions HTTP_DEFAULT_REQUEST_OPTION st._config callOpts) run).terminal
            = some (JsError.responseError re) →
          st.request method url callOpts run = Except.ok
            { stream :=
                { events :=
                    (mappedStage st method url
                        (mergeOptions HTTP_DEFAULT_REQUEST_OPTION st._config callOpts) run).events
                      ++ [StreamValue.wrapped JsValue.null
                            (RespField.er (JsError.responseError re)) false]
                  terminal := none }
              emissions :=
                _handleResponseError st._pubsub re
                  (mergeOptions HTTP_DEFAULT_REQUEST_OPTION st._config callOpts)
              logs := [] })
      ∧ (∀ msg,
          (mappedStage st method url
              (mergeOptions HTTP_DEFAULT_REQUEST_OPTION st._config callOpts) run).terminal
            = some (JsError.plainError msg) →
          st.request method url callOpts run = Except.ok
            { stream :=
                { events :=
                    (mappedStage st method url
                        (mergeOptions HTTP_DEFAULT_REQUEST_OPTION st._config callOpts) run).events
                      ++ [StreamValue.wrapped JsValue.null
                            (RespField.er (JsError.plainError msg)) false]
                  terminal := none }
              emissions := []
              logs := [LogEntry.consoleError (JsError.plainError msg)] }) := by
  intro st method url callOpts run hin
  refine ⟨?_, ?_, ?_⟩
  · intro out hout
    unfold HttpClientState.request at hout
    rw [hin] at hout
    simp only [Bool.true_eq_false, if_false] at hout
    cases hm : (mappedStage st method url
        (mergeOptions HTTP_DEFAULT_REQUEST_OPTION st._config callOpts) run).terminal with
    | none =>
      rw [hm] at hout
      simp only [Except.ok.injEq] at hout
      rw [← hout]
    | some e =>
      rw [hm] at hout
      cases e with
      | responseError re =>
        simp only [Except.ok.injEq] at hout
        rw [← hout]
      | plainError msg =>
        simp only [Except.ok.injEq] at hout
        rw [← hout]
  · intro re hre
    unfold HttpClientState.request
    rw [hin]
    simp only [Bool.true_eq_false, if_false]
    rw [hre]
  · intro msg hmsg
    unfold HttpClientState.request
    rw [hin]
    simp only [Bool.true_eq_false, if_false]
    rw [hmsg]

/-- Witness for C1: with an initialized client and a network-level
transport failure, `request` resolves (does not error) with the failure
value, and the emissions are the classifier's deliveries. -/
theorem request_c1_witness :
    initedClient._inited = true
    ∧ (mappedStage initedClient "get" "https://x" optsW runFail).terminal
        = some (JsError.responseError reW)
    ∧ initedClient.request "get" "https://x" {} runFail = Except.ok
        { stream :=
            { events := [StreamValue.wrapped JsValue.null
                (RespField.er (JsError.responseError reW)) false]
              terminal := none }
          emissions := []
          logs := [] } :=
  ⟨rfl, rfl,
   (request_c1 initedClient "get" "https://x" {} runFail rfl).2.1 reW rfl⟩

/-- C10: when the merged options observe events, the filter stage keeps
every stream value, the map stage is the identity (no
`{result, response, isSuccess}` wrapping, no interpreter involvement), and
on a successful transport run the subscriber receives exactly the
progress events followed by the raw response, unchanged. -/
theorem request_c10 :
    ∀ (st : HttpClientState) (method url : String) (callOpts : OptionsPatch)
      (run : TransportRun),
      callOpts.observe = some HttpObserveType.Event →
      (∀ v, filterPred (mergeOptions HTTP_DEFAULT_REQUEST_OPTION st._config callOpts) v = true)
      ∧ (∀ v, mapFn (mergeOptions HTTP_DEFAULT_REQUEST_OPTION st._config callOpts) v
          = Except.ok v)
      ∧ (st._inited = true → url ≠ "" → _isValidMethod method = true →
          ∀ r, run.outcome = TransportOutcome.success r →
          st.request method url callOpts run = Except.ok
            { stream :=
                { events := run.progress.map tickEvent ++ [StreamValue.rawResponse r]
                  terminal := none }
              emissions := []
              logs := [] }) := by
  intro st method url callOpts run hEvt
  have hobs : (mergeOptions HTTP_DEFAULT_REQUEST_OPTION st._config callOpts).observe
      = HttpObserveType.Event := by
    simp [mergeOptions, applyPatch, patchMerge, hEvt, optSomeOrElse]
  have hfil : ∀ v, filterPred (mergeOptions HTTP_DEFAULT_REQUEST_OPTION st._config callOpts) v
      = true := by
    intro v
    simp [filterPred, hobs]
  have hmapid : ∀ v, mapFn (mergeOptions HTTP_DEFAULT_REQUEST_OPTION st._config callOpts) v
      = Except.ok v := by
    intro v
    simp [mapFn, hobs]
  refine ⟨hfil, hmapid, ?_⟩
  intro hin hurl hvm r hr
  have hsrc : _requestStream st method url
      (mergeOptions HTTP_DEFAULT_REQUEST_OPTION st._config callOpts) run
      = { events := run.progress.map tickEvent ++ [StreamValue.rawResponse r]
          terminal := none } := by
    simp [_requestStream, _requestProducer, hurl, hvm, hr]
  have hmap : mappedStage st method url
      (mergeOptions HTTP_DEFAULT_REQUEST_OPTION st._config callOpts) run
      = { events := run.progress.map tickEvent ++ [StreamValue.rawResponse r]
          terminal := none } := by
    unfold mappedStage
    rw [hsrc]
    have hfl : (run.progress.map tickEvent ++ [StreamValue.rawResponse r]).filter
        (filterPred (mergeOptions HTTP_DEFAULT_REQUEST_OPTION st._config callOpts))
        = run.progress.map tickEvent ++ [StreamValue.rawResponse r] :=
      List.filter_eq_self.mpr (fun a _ => hfil a)
    simp [rxFilter, rxMapE, hfl, runMapEvents_ok_id _ hmapid]
  unfold HttpClientState.request
  rw [hin]
  simp only [Bool.true_eq_false, if_false]
  rw [hmap]

/-- Witness for C10: with `observe = Event`, a run with one upload tick
delivers the tick and the raw response unchanged. -/
theorem request_c10_witness :
    (filterPred (mergeOptions HTTP_DEFAULT_REQUEST_OPTION initedClient._config evtPatch)
        (StreamValue.uploadProgress (JsValue.num 1)) = true)
    ∧ (mapFn (mergeOptions HTTP_DEFAULT_REQUEST_OPTION initedClient._config evtPatch)
        (StreamValue.uploadProgress (JsValue.num 1))
        = Except.ok (StreamValue.uploadProgress (JsValue.num 1)))
    ∧ initedClient.request "get" "https://x" evtPatch runP = Except.ok
        { stream :=
            { events := [StreamValue.uploadProgress (JsValue.num 1),
                StreamValue.rawResponse { data := JsValue.null, status := 200 }]
              terminal := none }
          emissions := []
          logs := [] } :=
  ⟨(request_c10 initedClient "get" "https://x" evtPatch runP rfl).1 _,
   (request_c10 initedClient "get" "https://x" evtPatch runP rfl).2.1 _,
   (request_c10 initedClient "get" "https://x" evtPatch runP rfl).2.2 rfl (by decide) (by decide)
     { data := JsValue.null, status := 200 } rfl⟩

/-- C6 counterexample: on an initialized client, the missing-url
InvalidArgument failure is not raised synchronously at the `request` call
boundary and is not left unrecovered — the call returns a resolved stream
carrying `{result: null, response: error, isSuccess: false}` plus a
diagnostic log, i.e. this layer converts it exactly the way the claim
says it does not. -/
theorem request_c6_counterexample :
    initedClient.request "get" "" {} runOk = Except.ok
      { stream :=
          { events := [StreamValue.wrapped JsValue.null
              (RespField.er (JsError.plainError "the url is required!")) false]
            terminal := none }
        emissions := []
        logs := [LogEntry.consoleError (JsError.plainError "the url is required!")] } := rfl

/-- C6 amended: only the used-before-init InvalidArgument error is fatal,
synchronous at the call boundary and unrecovered; the missing-url and
invalid-method InvalidArgument errors surface inside the stream at
subscription time and — not being `ResponseError`s — are logged and
converted to the `{result: null, response: error, isSuccess: false}`
failure value with no bus emission, like any other unclassified error. -/
theorem request_c6_amended :
    ∀ (st : HttpClientState) (method url : String) (callOpts : OptionsPatch)
      (run : TransportRun),
      (st._inited = false →
        st.request method url callOpts run
          = Except.error (JsError.plainError "please call init first"))
      ∧ (st._inited = true → url = "" →
          st.request method url callOpts run = Except.ok
            { stream :=
                { events := [StreamValue.wrapped JsValue.null
                    (RespField.er (JsError.plainError "the url is required!")) false]
                  terminal := none }
              emissions := []
              logs := [LogEntry.consoleError (JsError.plainError "the url is required!")] })
      ∧ (st._inited = true → url ≠ "" → _isValidMethod method = false →
          st.request method url callOpts run = Except.ok
            { stream :=
                { events := [StreamValue.wrapped JsValue.null
                    (RespField.er (JsError.plainError ("method " ++ method ++ " is not valid!"))) false]
                  terminal := none }
              emissions := []
              logs := [LogEntry.consoleError
                (JsError.plainError ("method " ++ method ++ " is not valid!"))] }) := by
  intro st method url callOpts run
  refine ⟨?_, ?_, ?_⟩
  · intro hni
    simp [HttpClientState.request, hni]
  · intro hin hurl
    have hsrc : _requestStream st method url
        (mergeOptions HTTP_DEFAULT_REQUEST_OPTION st._config callOpts) run
        = { events := [], terminal := some (JsError.plainError "the url is required!") } := by
      simp [_requestStream, _requestProducer, hurl]
    have hmap : mappedStage st method url
        (mergeOptions HTTP_DEFAULT_REQUEST_OPTION st._config callOpts) run
        = { events := [], terminal := some (JsError.plainError "the url is required!") } := by
      unfold mappedStage
      rw [hsrc]
      simp [rxFilter, rxMapE, runMapEvents]
    unfold HttpClientState.request
    rw [hin]
    simp only [Bool.true_eq_false, if_false]
    rw [hmap]
    simp
  · intro hin hurl hvm
    have hsrc : _requestStream st method url
        (mergeOptions HTTP_DEFAULT_REQUEST_OPTION st._config callOpts) run
        = { events := []
            terminal := some (JsError.plainError ("method " ++ method ++ " is not valid!")) } := by
      simp [_requestStream, _requestProducer, hurl, hvm]
    have hmap : mappedStage st method url
        (mergeOptions HTTP_DEFAULT_REQUEST_OPTION st._config callOpts) run
        = { events := []
            terminal := some (JsError.plainError ("method " ++ method ++ " is not valid!")) } := by
      unfold mappedStage
      rw [hsrc]
      simp [rxFilter, rxMapE, runMapEvents]
    unfold HttpClientState.request
    rw [hin]
    simp only [Bool.true_eq_false, if_false]
    rw [hmap]
    simp

/-- Witness for the amended C6: a fresh client fails synchronously before
init, and an initialized client converts an invalid-method failure into a
resolved `{isSuccess: false}` stream. -/
theorem request_c6_witness :
    (HttpClient_new.request "get" "https://x" {} runOk
      = Except.error (JsError.plainError "please call init first"))
    ∧ initedClient.request "brew" "https://x" {} runOk = Except.ok
        { stream :=
            { events := [StreamValue.wrapped JsValue.null
                (RespField.er (JsError.plainError ("method " ++ "brew" ++ " is not valid!"))) false]
              terminal := none }
          emissions := []
          logs := [LogEntry.consoleError
            (JsError.plainError ("method " ++ "brew" ++ " is not valid!"))] } :=
  ⟨(request_c6_amended HttpClient_new "get" "https://x" {} runOk).1 rfl,
   (request_c6_amended initedClient "brew" "https://x" {} runOk).2.2 rfl (by decide) (by decide)⟩
